import Mathlib

/-!
Verification development for the wfmserver waveforms bridge
(src/wfmserver: DigilentSCPIServer.{h,cpp}, WaveformServerThread.cpp,
ScpiServerThread.cpp).

The shallow embedding below translates the instrument-state globals and the
operations of the SCPI control plane and of the waveform streaming thread
into pure Lean functions.  C++ `double` values are modelled as rationals,
`size_t`/`uint64_t` as `Nat` with explicit modular arithmetic where wraparound
matters, and `int64_t` quantities that are provably nonnegative in the source
(`g_sampleInterval`, `g_triggerDelay`) as `Nat`.  Out-of-bounds reads and
thrown exceptions are surfaced as `Option`/failure constructors.  Each
operation also returns the list of Digilent hardware-API calls it issues and
the number of times it invokes `DigilentSCPIServer::Start` (the arm
operation), so that temporal claims about re-arming are expressible.
-/

namespace Wfm

/-- FS_PER_SECOND constant of the source (femtoseconds per second). -/
def FS_PER_SECOND : ℕ := 10 ^ 15

/-- SECONDS_PER_FS constant of the source. -/
def SECONDS_PER_FS : ℚ := 1 / 10 ^ 15

/-- Modulus of the 64-bit `size_t` arithmetic used by the source. -/
def SIZE_T_MOD : ℕ := 2 ^ 64

/-- C++ conversion of a (possibly negative) integer to `size_t`:
reduction modulo 2^64. -/
def sizeTofInt (x : ℤ) : ℕ := (x % (SIZE_T_MOD : ℤ)).toNat

/-- The `size_t` expression `n - 1` of the source
(`g_memDepth-1` in InterpolateTriggerTime): wraps around at `n = 0`. -/
def sizeTSub1 (n : ℕ) : ℕ := if n = 0 then SIZE_T_MOD - 1 else n - 1

/-- Enum tag `DwfAnalogCouplingDC` (opaque value, only distinctness is used). -/
def DwfAnalogCouplingDC : ℕ := 0

/-- Enum tag `DwfAnalogCouplingAC`. -/
def DwfAnalogCouplingAC : ℕ := 1

/-- Enum tag `DwfTriggerSlopeRise`. -/
def DwfTriggerSlopeRise : ℕ := 0

/-- Enum tag `DwfTriggerSlopeFall`. -/
def DwfTriggerSlopeFall : ℕ := 1

/-- Enum tag `DwfTriggerSlopeEither`. -/
def DwfTriggerSlopeEither : ℕ := 2

/-- Enum tag `trigtypeEdge`. -/
def trigtypeEdge : ℕ := 0

/-- Enum tag `acqmodeSingle`. -/
def acqmodeSingle : ℕ := 0

/-- The mutable globals of DigilentSCPIServer.cpp that make up the
instrument-configuration model.  `channelOn` models the default-false map
`g_channelOn`; the `...DuringArm` fields are the arm snapshot written only by
`DigilentSCPIServer::Start`.  `sampleInterval` (`g_sampleInterval`, int64 fs)
and `triggerDelay` (`g_triggerDelay`, written only from a `uint64_t`) hold
nonnegative values in the source and are modelled as `Nat`. -/
structure InstState where
  channelOn : ℕ → Bool
  memDepth : ℕ
  sampleInterval : ℕ
  channelOnDuringArm : ℕ → Bool
  sampleIntervalDuringArm : ℕ
  captureMemDepth : ℕ
  triggerArmed : Bool
  triggerOneShot : Bool
  memDepthChanged : Bool
  triggerVoltage : ℚ
  triggerChannel : ℕ
  triggerSampleIndex : ℕ
  triggerDelay : ℕ
  triggerDeltaSec : ℚ

/-- Initial values of the globals (C++ zero-initialization plus the explicit
initializers `g_memDepth = 1000000`, `g_sampleInterval = 0`). -/
def initState : InstState where
  channelOn := fun _ => false
  memDepth := 1000000
  sampleInterval := 0
  channelOnDuringArm := fun _ => false
  sampleIntervalDuringArm := 0
  captureMemDepth := 0
  triggerArmed := false
  triggerOneShot := false
  memDepthChanged := false
  triggerVoltage := 0
  triggerChannel := 0
  triggerSampleIndex := 0
  triggerDelay := 0
  triggerDeltaSec := 0

/-- Digilent hardware-API calls issued by the server, with the arguments that
the source computes for them. -/
inductive HWCall where
  | channelEnableSet (ch : ℕ) (enabled : Bool)
  | channelCouplingSet (ch : ℕ) (coupling : ℕ)
  | channelRangeSet (ch : ℕ) (range_V : ℚ)
  | channelOffsetSet (ch : ℕ) (offset_V : ℚ)
  | channelAttenuationSet (ch : ℕ) (atten : ℚ)
  | frequencySet (rate_hz : ℕ)
  | bufferSizeSet (depth : ℕ)
  | triggerPositionSet (position_sec : ℚ)
  | triggerPositionGet
  | triggerSourceSet
  | triggerAutoTimeoutSet (timeout_s : ℚ)
  | triggerChannelSet (ch : ℕ)
  | triggerLevelSet (level_V : ℚ)
  | triggerTypeSet (ty : ℕ)
  | triggerConditionSet (cond : ℕ)
  | acquisitionModeSet (mode : ℕ)
  | configure (reconfigure : Bool) (start : Bool)
  | analogInStatus
  | statusSamplesLeft
  | statusData (ch : ℕ)
  deriving DecidableEq

/-- Result of one control-plane or streamer operation: the new state, the
hardware calls issued, and the number of invocations of
`DigilentSCPIServer::Start`. -/
structure StepResult where
  state : InstState
  calls : List HWCall
  starts : ℕ

/-- DigilentSCPIServer::Start(bool force).  The `force` parameter is unused by
the source body.  Copies the live configuration into the arm snapshot,
precomputes `g_triggerSampleIndex = g_triggerDelay / g_sampleInterval`
(int64 division of nonnegative values; when `g_sampleInterval = 0` the source
divides by zero, which Lean's total division maps to 0 - see the C5 theorems),
configures single-acquisition mode, starts the acquisition, and arms. -/
def Start (s : InstState) (force : Bool) : InstState × List HWCall :=
  let _ := force
  ({ s with
      captureMemDepth := s.memDepth
      channelOnDuringArm := s.channelOn
      sampleIntervalDuringArm := s.sampleInterval
      triggerSampleIndex := s.triggerDelay / s.sampleInterval
      triggerArmed := true },
   [HWCall.acquisitionModeSet acqmodeSingle, HWCall.configure true true])

/-- DigilentSCPIServer::Stop: configure-without-start, disarm. -/
def Stop (s : InstState) : InstState × List HWCall :=
  ({ s with triggerArmed := false }, [HWCall.configure true false])

/-- DigilentSCPIServer::RestartTriggerIfArmed (header, lines 153-158):
`if(g_triggerArmed) Start(g_triggerOneShot);`.  Note that the source passes
`g_triggerOneShot` as the (unused) `force` argument and restarts whenever
armed, one-shot or not. -/
def RestartTriggerIfArmed (s : InstState) : StepResult :=
  if s.triggerArmed then
    let r := Start s s.triggerOneShot
    ⟨r.1, r.2, 1⟩
  else ⟨s, [], 0⟩

/-- DigilentSCPIServer::SetChannelEnabled. -/
def SetChannelEnabled (s : InstState) (chIndex : ℕ) (enabled : Bool) : StepResult :=
  let s1 := { s with
      channelOn := Function.update s.channelOn chIndex enabled
      memDepthChanged := true }
  let r := RestartTriggerIfArmed s1
  ⟨r.state, HWCall.channelEnableSet chIndex enabled :: r.calls, r.starts⟩

/-- DigilentSCPIServer::SetAnalogCoupling: pushes the coupling to hardware and
does not re-arm. -/
def SetAnalogCoupling (s : InstState) (chIndex : ℕ) (coupling : String) : StepResult :=
  let coup := if coupling = "DC1M" then DwfAnalogCouplingDC else DwfAnalogCouplingAC
  ⟨s, [HWCall.channelCouplingSet chIndex coup], 0⟩

/-- DigilentSCPIServer::SetAnalogRange. -/
def SetAnalogRange (s : InstState) (chIndex : ℕ) (range_V : ℚ) : StepResult :=
  let r := RestartTriggerIfArmed s
  ⟨r.state, HWCall.channelRangeSet chIndex range_V :: r.calls, r.starts⟩

/-- DigilentSCPIServer::SetAnalogOffset. -/
def SetAnalogOffset (s : InstState) (chIndex : ℕ) (offset_V : ℚ) : StepResult :=
  let r := RestartTriggerIfArmed s
  ⟨r.state, HWCall.channelOffsetSet chIndex offset_V :: r.calls, r.starts⟩

/-- The ATTEN branch of DigilentSCPIServer::OnCommand: pushes the attenuation
and re-arms with `if(g_triggerArmed) Start();`. -/
def OnCommandAtten (s : InstState) (channelId : ℕ) (requestedAtten : ℚ) : StepResult :=
  if s.triggerArmed then
    let r := Start s false
    ⟨r.1, HWCall.channelAttenuationSet channelId requestedAtten :: r.2, 1⟩
  else
    ⟨s, [HWCall.channelAttenuationSet channelId requestedAtten], 0⟩

/-- DigilentSCPIServer::SetSampleRate:
`g_sampleInterval = FS_PER_SECOND / rate_hz` (integer division; division by
zero for `rate_hz = 0` in the source, 0 in Lean). -/
def SetSampleRate (s : InstState) (rate_hz : ℕ) : StepResult :=
  let s1 := { s with sampleInterval := FS_PER_SECOND / rate_hz }
  let r := RestartTriggerIfArmed s1
  ⟨r.state, HWCall.frequencySet rate_hz :: r.calls, r.starts⟩

/-- DigilentSCPIServer::SetSampleDepth. -/
def SetSampleDepth (s : InstState) (depth : ℕ) : StepResult :=
  let s1 := { s with memDepth := depth, memDepthChanged := true }
  let r := RestartTriggerIfArmed s1
  ⟨r.state, HWCall.bufferSizeSet depth :: r.calls, r.starts⟩

/-- DigilentSCPIServer::SetTriggerDelay.  `position_sec_actual` models the
value the hardware reports back from `FDwfAnalogInTriggerPositionGet` after
rounding the requested trigger position. -/
def SetTriggerDelay (s : InstState) (delay_fs : ℕ) (position_sec_actual : ℚ) : StepResult :=
  let offset_samples : ℤ := (s.memDepth / 2 : ℕ)
  let offset_fs : ℤ := offset_samples * (s.sampleInterval : ℤ)
  let position_fs : ℤ := offset_fs - (delay_fs : ℤ)
  let position_sec_requested : ℚ := (position_fs : ℚ) * SECONDS_PER_FS
  let s1 := { s with
      triggerDelay := delay_fs
      triggerDeltaSec := position_sec_actual - position_sec_requested }
  let r := RestartTriggerIfArmed s1
  ⟨r.state,
   HWCall.triggerPositionSet position_sec_requested :: HWCall.triggerPositionGet :: r.calls,
   r.starts⟩

/-- DigilentSCPIServer::SetTriggerSource. -/
def SetTriggerSource (s : InstState) (chIndex : ℕ) : StepResult :=
  let s1 := { s with triggerChannel := chIndex }
  let r := RestartTriggerIfArmed s1
  ⟨r.state,
   HWCall.triggerSourceSet :: HWCall.triggerAutoTimeoutSet 0 ::
     HWCall.triggerChannelSet chIndex :: r.calls,
   r.starts⟩

/-- DigilentSCPIServer::SetTriggerLevel. -/
def SetTriggerLevel (s : InstState) (level_V : ℚ) : StepResult :=
  let s1 := { s with triggerVoltage := level_V }
  let r := RestartTriggerIfArmed s1
  ⟨r.state, HWCall.triggerLevelSet level_V :: r.calls, r.starts⟩

/-- DigilentSCPIServer::SetTriggerTypeEdge. -/
def SetTriggerTypeEdge (s : InstState) : StepResult :=
  let r := RestartTriggerIfArmed s
  ⟨r.state, HWCall.triggerTypeSet trigtypeEdge :: r.calls, r.starts⟩

/-- DigilentSCPIServer::SetEdgeTriggerEdge. -/
def SetEdgeTriggerEdge (s : InstState) (edge : String) : StepResult :=
  let condition :=
    if edge = "RISING" then DwfTriggerSlopeRise
    else if edge = "FALLING" then DwfTriggerSlopeFall
    else DwfTriggerSlopeEither
  let r := RestartTriggerIfArmed s
  ⟨r.state, HWCall.triggerConditionSet condition :: r.calls, r.starts⟩

/-- The `anyChannels` scan of DigilentSCPIServer::AcquisitionStart:
some channel with index below `g_numAnalogInChannels` is enabled. -/
def anyChannels (numAnalogInChannels : ℕ) (s : InstState) : Bool :=
  (List.range numAnalogInChannels).any fun i => s.channelOn i

/-- DigilentSCPIServer::AcquisitionStart(oneShot): no-op (with a log message)
when already armed or when no channel is enabled; otherwise `Start()` and
record the one-shot flag. -/
def AcquisitionStart (numAnalogInChannels : ℕ) (s : InstState) (oneShot : Bool) : StepResult :=
  if s.triggerArmed then ⟨s, [], 0⟩
  else if !anyChannels numAnalogInChannels s then ⟨s, [], 0⟩
  else
    let r := Start s false
    ⟨{ r.1 with triggerOneShot := oneShot }, r.2, 1⟩

/-- DigilentSCPIServer::AcquisitionForceTrigger: unconditionally `Start(true)`
(no armed check, no channel check). -/
def AcquisitionForceTrigger (s : InstState) : StepResult :=
  let r := Start s true
  ⟨r.1, r.2, 1⟩

/-- DigilentSCPIServer::AcquisitionStop. -/
def AcquisitionStop (s : InstState) : StepResult :=
  let r := Stop s
  ⟨r.1, r.2, 0⟩

/-- InterpolateTriggerTime of WaveformServerThread.cpp.  The source compares
`g_triggerSampleIndex >= g_memDepth-1` in `size_t` arithmetic (`sizeTSub1`)
and then dereferences `buf[i]` and `buf[i+1]` on a raw pointer; an
out-of-bounds read is undefined behaviour and is surfaced as `none`. -/
def InterpolateTriggerTime (memDepth triggerSampleIndex : ℕ) (triggerVoltage : ℚ)
    (buf : List ℚ) : Option ℚ :=
  if sizeTSub1 memDepth ≤ triggerSampleIndex then some 0
  else
    match buf.get? triggerSampleIndex, buf.get? (triggerSampleIndex + 1) with
    | some fa, some fb => some ((triggerVoltage - fa) / (fb - fa))
    | _, _ => none

/-- The trigger-phase computation of the streamer
(WaveformServerThread.cpp lines 155-166):
`trigphase = -InterpolateTriggerTime(waveformBuffers[g_triggerChannel]) * interval;`
`trigphase += (interval + g_triggerDeltaSec*FS_PER_SECOND);`
where `interval = g_sampleIntervalDuringArm`.  `statusData ch` models the
sample buffer downloaded from the hardware for channel `ch`. -/
def captureTrigPhase (s : InstState) (statusData : ℕ → List ℚ) : Option ℚ :=
  (InterpolateTriggerTime s.memDepth s.triggerSampleIndex s.triggerVoltage
      (statusData s.triggerChannel)).map fun ph =>
    -ph * (s.sampleIntervalDuringArm : ℚ) +
      ((s.sampleIntervalDuringArm : ℚ) + s.triggerDeltaSec * (FS_PER_SECOND : ℚ))

/-- One per-channel message of the data plane: channel index, memory depth,
trigger phase, raw samples. -/
structure ChannelFrame where
  index : ℕ
  depth : ℕ
  trigphase : Option ℚ
  samples : List ℚ
  deriving DecidableEq

/-- One full data-plane frame for a completed capture. -/
structure Frame where
  numchans : ℕ
  sampleIntervalFs : ℕ
  channels : List ChannelFrame
  deriving DecidableEq

/-- The re-arm decision at the end of the streamer body
(WaveformServerThread.cpp lines 198-206): disarm when one-shot, otherwise
call `DigilentSCPIServer::Start()` again. -/
def drainFinal (s1 : InstState) : InstState × List HWCall × ℕ :=
  if s1.triggerOneShot then ({ s1 with triggerArmed := false }, [], 0)
  else
    let r := Start s1 false
    (r.1, r.2, 1)

/-- One capture-draining iteration of WaveformServerThread (the body that runs
once `samplesLeft == 0`): snapshot the during-arm fields under lock,
reallocate buffers (clearing `g_memDepthChanged`), download every channel,
send the frame (channel count and interval from the arm snapshot, then one
message per channel enabled during arm), and finally either disarm (one-shot)
or call `DigilentSCPIServer::Start()` again (repeating).  The busy-poll
iterations before completion are abstracted to the final status query. -/
def drainCapture (numAnalogInChannels : ℕ) (s : InstState) (statusData : ℕ → List ℚ) :
    StepResult × Frame :=
  let interval := s.sampleIntervalDuringArm
  let depth := s.captureMemDepth
  let s1 := { s with memDepthChanged := false }
  let trigphase := captureTrigPhase s statusData
  let enabled := (List.range numAnalogInChannels).filter fun i => s.channelOnDuringArm i
  let channels := enabled.map fun i =>
    ChannelFrame.mk i depth trigphase ((statusData i).take depth)
  let downloadCalls :=
    HWCall.analogInStatus :: HWCall.statusSamplesLeft ::
      ((List.range numAnalogInChannels).map fun i => HWCall.statusData i)
  let final := drainFinal s1
  (⟨final.1, downloadCalls ++ final.2.1, final.2.2⟩,
   ⟨enabled.length, interval, channels⟩)

/-- The operations of the control plane and of the streamer that mutate the
instrument state.  `setTriggerDelay` carries the hardware's reported actual
trigger position; `drain` carries the per-channel sample readback. -/
inductive Op where
  | setChannelEnabled (ch : ℕ) (enabled : Bool)
  | setAnalogCoupling (ch : ℕ) (coupling : String)
  | setAnalogRange (ch : ℕ) (range_V : ℚ)
  | setAnalogOffset (ch : ℕ) (offset_V : ℚ)
  | commandAtten (ch : ℕ) (atten : ℚ)
  | setSampleRate (rate_hz : ℕ)
  | setSampleDepth (depth : ℕ)
  | setTriggerDelay (delay_fs : ℕ) (position_sec_actual : ℚ)
  | setTriggerSource (ch : ℕ)
  | setTriggerLevel (level_V : ℚ)
  | setTriggerTypeEdge
  | setEdgeTriggerEdge (edge : String)
  | acquisitionStart (oneShot : Bool)
  | acquisitionForceTrigger
  | acquisitionStop
  | drain (statusData : ℕ → List ℚ)

/-- Small-step semantics: dispatch one operation against the shared state.
The streamer's `drain` only fires when armed (the loop sleeps otherwise). -/
def step (numAnalogInChannels : ℕ) (s : InstState) (op : Op) : StepResult :=
  match op with
  | .setChannelEnabled ch enabled => SetChannelEnabled s ch enabled
  | .setAnalogCoupling ch coupling => SetAnalogCoupling s ch coupling
  | .setAnalogRange ch range_V => SetAnalogRange s ch range_V
  | .setAnalogOffset ch offset_V => SetAnalogOffset s ch offset_V
  | .commandAtten ch atten => OnCommandAtten s ch atten
  | .setSampleRate rate_hz => SetSampleRate s rate_hz
  | .setSampleDepth depth => SetSampleDepth s depth
  | .setTriggerDelay delay_fs posActual => SetTriggerDelay s delay_fs posActual
  | .setTriggerSource ch => SetTriggerSource s ch
  | .setTriggerLevel level_V => SetTriggerLevel s level_V
  | .setTriggerTypeEdge => SetTriggerTypeEdge s
  | .setEdgeTriggerEdge edge => SetEdgeTriggerEdge s edge
  | .acquisitionStart oneShot => AcquisitionStart numAnalogInChannels s oneShot
  | .acquisitionForceTrigger => AcquisitionForceTrigger s
  | .acquisitionStop => AcquisitionStop s
  | .drain statusData =>
      if s.triggerArmed then (drainCapture numAnalogInChannels s statusData).1
      else ⟨s, [], 0⟩

/-- States reachable from the initial globals by any operation sequence. -/
inductive Reachable (numAnalogInChannels : ℕ) : InstState → Prop where
  | init : Reachable numAnalogInChannels initState
  | step {s : InstState} (op : Op) :
      Reachable numAnalogInChannels s →
      Reachable numAnalogInChannels (Wfm.step numAnalogInChannels s op).state

/-- State after `C1:ON` from the initial state (two analog channels). -/
def stateChanOn : InstState :=
  (step 2 initState (Op.setChannelEnabled 0 true)).state

/-- State after `C1:ON` then `SINGLE`: armed, one-shot, reached without any
RATE command, so `sampleInterval` is still 0. -/
def stateArmedOneShot : InstState :=
  (step 2 stateChanOn (Op.acquisitionStart true)).state

/-- C++ conversion of a nonnegative `double` (modelled as `ℚ`) to `size_t`:
truncation toward zero, i.e. the floor for nonnegative values.  Used by
`rates.push_back(freq)`, which stores a `double` in a `vector<size_t>`. -/
def ratToSizeT (q : ℚ) : ℕ := q.num.toNat / q.den

/-- The 1-2-5 stepdown loop of DigilentSCPIServer::GetSampleRates:
`while(freq >= minFreq) { push freq, freq/2, freq/5; freq /= 10; }`.
The hypothesis `1000 ≤ minFreq` is established by the source's
`minFreq = max(minFreq, 1000.0)` cap and makes the loop terminate. -/
def ratesLoop (minFreq : ℚ) (hmin : 1000 ≤ minFreq) (freq : ℚ) : List ℕ :=
  if h : minFreq ≤ freq then
    ratToSizeT freq :: ratToSizeT (freq / 2) :: ratToSizeT (freq / 5) ::
      ratesLoop minFreq hmin (freq / 10)
  else []
termination_by ratToSizeT freq
decreasing_by
  have hb : ((ratToSizeT (freq / 10) : ℤ) = ⌊freq / 10⌋) ∧
      ((ratToSizeT freq : ℤ) = ⌊freq⌋) := by
    constructor <;>
      · rw [Rat.floor_def]
        rw [← Int.toNat_of_nonneg (Rat.num_nonneg.mpr (by linarith))]
        rw [ratToSizeT, Int.natCast_div]
  have h2 : ((⌊freq / 10⌋ + 1 : ℤ) : ℚ) ≤ freq := by
    push_cast
    linarith [Int.floor_le (freq / 10)]
  have h3 := Int.le_floor.mpr h2
  omega

/-- DigilentSCPIServer::GetSampleRates: cap the hardware minimum frequency to
1 kHz, then list the 1-2-5 stepdown from the hardware maximum. -/
def GetSampleRates (minFreqHW maxFreqHW : ℚ) : List ℕ :=
  ratesLoop (max minFreqHW 1000) (le_max_right minFreqHW 1000) maxFreqHW

/-- C-locale `isspace`. -/
def isSpaceChar (c : Char) : Bool :=
  c = ' ' ∨ c = '\t' ∨ c = '\n' ∨ c = Char.ofNat 11 ∨ c = Char.ofNat 12 ∨ c = '\r'

/-- ASCII digit test. -/
def isDigitChar (c : Char) : Bool := '0' ≤ c ∧ c ≤ '9'

/-- Numeric value of an ASCII digit. -/
def digitVal (c : Char) : ℕ := c.toNat - '0'.toNat

/-- C-locale `toupper` for the ASCII range. -/
def toupperChar (c : Char) : Char :=
  if 'a' ≤ c ∧ c ≤ 'z' then Char.ofNat (c.toNat - 32) else c

/-- The `strtol`-style scan underlying `std::stoi` (base 10): skip leading
whitespace, read an optional sign and a nonempty digit run, stop at the first
non-digit; `none` when no digits were read. -/
def stoiRaw (s : List Char) : Option ℤ :=
  let s1 := s.dropWhile fun c => isSpaceChar c
  let signed : ℤ × List Char :=
    match s1 with
    | '-' :: rest => (-1, rest)
    | '+' :: rest => (1, rest)
    | _ => (1, s1)
  let digits := signed.2.takeWhile fun c => isDigitChar c
  if digits.isEmpty then none
  else some (signed.1 * (digits.foldl (fun acc c => acc * 10 + digitVal c) 0 : ℕ))

/-- `std::stoi`: the scanned value, range-checked against `int`.  `none`
models the thrown `std::invalid_argument` (no digits) or `std::out_of_range`
(value outside `int`) exceptions. -/
def stoi (s : List Char) : Option ℤ :=
  match stoiRaw s with
  | none => none
  | some v => if v < -(2 ^ 31) ∨ 2 ^ 31 ≤ v then none else some v

/-- Outcome of DigilentSCPIServer::GetChannelID: the subject does not name a
channel (`return false`), the embedded `stoi` throws, or a channel index is
produced (`return true` with `id_out` set). -/
inductive ChannelIDResult where
  | notChannel
  | threw
  | ok (id : ℕ)
  deriving DecidableEq

/-- DigilentSCPIServer::GetChannelID (bool overload, lines 104-124): if the
first subject character is `C`/`c`, set
`id_out = min(size_t(stoi(subject+1) - 1), g_numAnalogInChannels)`.
`subject[0]` on an empty `std::string` reads the terminating null character. -/
def GetChannelID (numAnalogInChannels : ℕ) (subject : List Char) : ChannelIDResult :=
  let c0 := subject.headD (Char.ofNat 0)
  if toupperChar c0 = 'C' then
    match stoi (subject.drop 1) with
    | none => ChannelIDResult.threw
    | some k => ChannelIDResult.ok (min (sizeTofInt (k - 1)) numAnalogInChannels)
  else ChannelIDResult.notChannel

/-- Mathematical clamp of an integer into `[0, n]`, following the claim's
words `parseInt(subject[1:]) - 1 clamped into [0, numAnalogChannels]`.
Modelled from the spec, for comparison with `GetChannelID`. -/
def specClamp (n : ℕ) (k : ℤ) : ℕ := (max 0 (min k (n : ℤ))).toNat

/-- Parser state of ParseScpiLine: the four output fields plus the loop
locals `tmp` and `reading_cmd`. -/
structure ScpiParse where
  subject : List Char
  cmd : List Char
  query : Bool
  args : List (List Char)
  tmp : List Char
  reading_cmd : Bool
  deriving DecidableEq

/-- Parser state at the top of ParseScpiLine (all fields reset). -/
def initParse : ScpiParse :=
  ⟨[], [], false, [], [], true⟩

/-- One iteration of the character loop of ParseScpiLine
(ScpiServerThread.cpp lines 613-651). -/
def parseChar (st : ScpiParse) (c : Char) : ScpiParse :=
  if c = ':' ∧ st.subject = [] then { st with subject := st.tmp, tmp := [] }
  else if c = '?' then { st with query := true }
  else if ¬(isSpaceChar c ∧ st.cmd = []) ∧ c ≠ ',' then { st with tmp := st.tmp ++ [c] }
  else if st.tmp = [] then st
  else if st.reading_cmd then { st with cmd := st.tmp, reading_cmd := false, tmp := [] }
  else { st with args := st.args ++ [st.tmp], reading_cmd := false, tmp := [] }

/-- The leftover handling at the end of ParseScpiLine (lines 654-660). -/
def finishLine (st : ScpiParse) : ScpiParse :=
  if st.tmp ≠ [] then
    if st.cmd ≠ [] then { st with args := st.args ++ [st.tmp] }
    else { st with cmd := st.tmp }
  else st

/-- ParseScpiLine of ScpiServerThread.cpp. -/
def ParseScpiLine (line : List Char) : ScpiParse :=
  finishLine (line.foldl parseChar initParse)

/-- The subject the claim predicts: the text before the first colon when that
colon precedes the first space, `?` or comma, and empty otherwise.
Modelled from the spec, for comparison with `ParseScpiLine`. -/
def specSubject (line : List Char) : List Char :=
  let dpos := line.findIdx fun c => isSpaceChar c || c == '?' || c == ','
  let cpos := line.findIdx fun c => c == ':'
  if cpos < dpos ∧ cpos < line.length then line.take cpos else []

/-- The first whitespace/comma-delimited token of a (colon-free) line, with
every `?` stripped; `t` is the part of the token accumulated so far.
Formalizes the claim's `the whole first token`. -/
def firstTok (t : List Char) : List Char → List Char
  | [] => t
  | c :: cs =>
    if c = '?' then firstTok t cs
    else if isSpaceChar c ∨ c = ',' then (if t = [] then firstTok [] cs else t)
    else firstTok (t ++ [c]) cs

/-- The configuration-change operations enumerated by the claims: channel
enable/disable, coupling, range, offset, attenuation, sample rate and depth,
and the trigger parameters. -/
def isConfigChange (op : Op) : Bool :=
  match op with
  | .setChannelEnabled _ _ => true
  | .setAnalogCoupling _ _ => true
  | .setAnalogRange _ _ => true
  | .setAnalogOffset _ _ => true
  | .commandAtten _ _ => true
  | .setSampleRate _ => true
  | .setSampleDepth _ => true
  | .setTriggerDelay _ _ => true
  | .setTriggerSource _ => true
  | .setTriggerLevel _ => true
  | .setTriggerTypeEdge => true
  | .setEdgeTriggerEdge _ => true
  | _ => false

/-- Configuration changes whose handler re-arms an armed capture.  Every
configuration change does, except coupling (SetAnalogCoupling has no
`RestartTriggerIfArmed` call). -/
def rearmsWhenArmed (op : Op) : Bool :=
  match op with
  | .setAnalogCoupling _ _ => false
  | _ => isConfigChange op

/-- Positivity invariant of the claim: sample interval and memory depth are
positive, and so are their arm-snapshot copies whenever armed. -/
def armedPosInv (s : InstState) : Prop :=
  0 < s.memDepth ∧ 0 < s.sampleInterval ∧
    (s.triggerArmed = true → 0 < s.sampleIntervalDuringArm ∧ 0 < s.captureMemDepth)

/-- Well-formedness of an operation's argument as needed by the positivity
invariant: RATE between 1 Hz and 10^15 Hz (so the integer interval is
nonzero), DEPTH positive. -/
def goodOp (op : Op) : Prop :=
  match op with
  | .setSampleRate rate_hz => 1 ≤ rate_hz ∧ rate_hz ≤ FS_PER_SECOND
  | .setSampleDepth depth => 0 < depth
  | _ => True

/-- An artificial armed state whose arm snapshot is stale (capture depth 3,
live depth 5), used to exhibit the effect of FORCE while armed. -/
def stateArmedStale : InstState :=
  { initState with triggerArmed := true, memDepth := 5, captureMemDepth := 3 }

/-- A two-sample hardware readback, constant across channels. -/
def dataPair : ℕ → List ℚ := fun _ => [0, 1]


/-- Claim C1: after the arm operation (DigilentSCPIServer::Start) completes,
the ArmSnapshot fields (g_channelOnDuringArm, g_sampleIntervalDuringArm,
g_captureMemDepth) equal exactly the live configuration (g_channelOn,
g_sampleInterval, g_memDepth) at the instant Start was called (Start leaves
the live fields untouched, so snapshot and live agree after it), and no
operation that does not invoke Start modifies the snapshot fields. -/
theorem claim_C1 :
    (∀ s force,
        (Start s force).1.channelOnDuringArm = s.channelOn ∧
        (Start s force).1.sampleIntervalDuringArm = s.sampleInterval ∧
        (Start s force).1.captureMemDepth = s.memDepth ∧
        (Start s force).1.channelOn = s.channelOn ∧
        (Start s force).1.sampleInterval = s.sampleInterval ∧
        (Start s force).1.memDepth = s.memDepth) ∧
    (∀ n s op, (step n s op).starts = 0 →
        (step n s op).state.channelOnDuringArm = s.channelOnDuringArm ∧
        (step n s op).state.sampleIntervalDuringArm = s.sampleIntervalDuringArm ∧
        (step n s op).state.captureMemDepth = s.captureMemDepth) := by
  refine ⟨fun s force => ⟨rfl, rfl, rfl, rfl, rfl, rfl⟩, ?_⟩
  intro n s op h
  cases op <;>
    simp only [step, SetChannelEnabled, SetAnalogCoupling, SetAnalogRange, SetAnalogOffset,
      OnCommandAtten, SetSampleRate, SetSampleDepth, SetTriggerDelay, SetTriggerSource,
      SetTriggerLevel, SetTriggerTypeEdge, SetEdgeTriggerEdge, AcquisitionStart,
      AcquisitionForceTrigger, AcquisitionStop, Stop, drainCapture, drainFinal,
      RestartTriggerIfArmed, Start] at h ⊢ <;>
    (try split_ifs at h ⊢) <;>
    simp_all

/-- Claim C2 (amended): a configuration change invokes the arm operation
Start exactly once whenever a capture is armed, one-shot or repeating alike,
and never when disarmed; the only exception is coupling, whose handler never
re-arms.  The original claim - that a one-shot armed capture is never
re-armed by a configuration change - is false: RestartTriggerIfArmed calls
Start(g_triggerOneShot) whenever g_triggerArmed, and Start ignores its
argument. -/
theorem claim_C2_amended :
    ∀ n s op, isConfigChange op = true →
      (step n s op).starts =
        if s.triggerArmed = true ∧ rearmsWhenArmed op = true then 1 else 0 := by
  intro n s op hcfg
  cases op <;>
    simp only [isConfigChange] at hcfg <;>
    simp only [step, SetChannelEnabled, SetAnalogCoupling, SetAnalogRange, SetAnalogOffset,
      OnCommandAtten, SetSampleRate, SetSampleDepth, SetTriggerDelay, SetTriggerSource,
      SetTriggerLevel, SetTriggerTypeEdge, SetEdgeTriggerEdge,
      RestartTriggerIfArmed, rearmsWhenArmed, isConfigChange] <;>
    split_ifs <;>
    simp_all

/-- Claim C2 counterexample: in the reachable state reached by C1:ON then
SINGLE (armed, one-shot), a DEPTH command invokes Start and produces a fresh
ArmSnapshot (captureMemDepth moves from 1000000 to 65536), contradicting the
claim that a change applied to an armed one-shot capture never invokes
Start. -/
theorem claim_C2_counterexample :
    Reachable 2 stateArmedOneShot ∧
    stateArmedOneShot.triggerArmed = true ∧
    stateArmedOneShot.triggerOneShot = true ∧
    (step 2 stateArmedOneShot (Op.setSampleDepth 65536)).starts = 1 ∧
    (step 2 stateArmedOneShot (Op.setSampleDepth 65536)).state.captureMemDepth = 65536 ∧
    stateArmedOneShot.captureMemDepth = 1000000 := by
  refine ⟨?_, by decide, by decide, by decide, by decide, by decide⟩
  exact Reachable.step (Op.acquisitionStart true)
    (Reachable.step (Op.setChannelEnabled 0 true) Reachable.init)

/-- Claim C3 (amended): AcquisitionStart (the force=false arm path used by
START/SINGLE) is a no-op - state unchanged, no hardware calls, no Start
invocation - when already armed, and likewise when no channel is enabled;
AcquisitionForceTrigger (force=true) bypasses BOTH the armed check and the
channel check: it always executes Start, overwriting the arm snapshot and
re-arming.  The original claim that force=true still respects the
not-already-armed precondition is false. -/
theorem claim_C3_amended :
    (∀ n s oneShot, s.triggerArmed = true →
        AcquisitionStart n s oneShot = ⟨s, [], 0⟩) ∧
    (∀ n s oneShot, anyChannels n s = false →
        AcquisitionStart n s oneShot = ⟨s, [], 0⟩) ∧
    (∀ s, (AcquisitionForceTrigger s).starts = 1 ∧
        (AcquisitionForceTrigger s).state.triggerArmed = true ∧
        (AcquisitionForceTrigger s).state.captureMemDepth = s.memDepth ∧
        (AcquisitionForceTrigger s).state.channelOnDuringArm = s.channelOn ∧
        (AcquisitionForceTrigger s).state.sampleIntervalDuringArm = s.sampleInterval) := by
  refine ⟨?_, ?_, fun s => ⟨rfl, rfl, rfl, rfl, rfl⟩⟩
  · intro n s oneShot h
    unfold AcquisitionStart
    rw [if_pos h]
  · intro n s oneShot h
    unfold AcquisitionStart
    split_ifs with h1 h2
    · rfl
    · rfl
    · rw [h] at h2
      simp at h2

/-- Claim C3 counterexample: on an armed state, FORCE is not a no-op: it
overwrites the arm snapshot (captureMemDepth 3 becomes 5) and issues the
acquisition-mode and configure hardware calls, restarting the acquisition,
where the claim demands a no-op when the not-already-armed precondition is
violated. -/
theorem claim_C3_counterexample :
    stateArmedStale.triggerArmed = true ∧
    (AcquisitionForceTrigger stateArmedStale).state.captureMemDepth = 5 ∧
    stateArmedStale.captureMemDepth = 3 ∧
    (AcquisitionForceTrigger stateArmedStale).calls ≠ [] := by
  refine ⟨rfl, rfl, rfl, ?_⟩
  decide

/-- Claim C4 (amended): for a buffer of the capture depth with depth >= 1,
InterpolateTriggerTime returns exactly 0 when triggerSampleIndex >=
bufferDepth - 1, and otherwise returns
(triggerVoltage - buf[i]) / (buf[i+1] - buf[i]) reading only in-bounds
elements of buf.  For depth 0 the claim fails: the size_t expression
g_memDepth-1 wraps around and the function reads out of bounds. -/
theorem claim_C4_amended :
    (∀ memDepth i V buf, buf.length = memDepth → 1 ≤ memDepth → memDepth - 1 ≤ i →
        InterpolateTriggerTime memDepth i V buf = some 0) ∧
    (∀ memDepth i V buf, buf.length = memDepth → i + 1 < memDepth →
        ∃ fa fb, buf.get? i = some fa ∧ buf.get? (i + 1) = some fb ∧
          InterpolateTriggerTime memDepth i V buf = some ((V - fa) / (fb - fa))) := by
  constructor
  · intro memDepth i V buf _ h1 h2
    have hs : sizeTSub1 memDepth = memDepth - 1 := by
      unfold sizeTSub1
      rw [if_neg (by omega)]
    unfold InterpolateTriggerTime
    rw [hs, if_pos h2]
  · intro memDepth i V buf hlen h2
    have hs : sizeTSub1 memDepth = memDepth - 1 := by
      unfold sizeTSub1
      rw [if_neg (by omega)]
    have hi : i < buf.length := by omega
    have hi1 : i + 1 < buf.length := by omega
    refine ⟨buf.get ⟨i, hi⟩, buf.get ⟨i + 1, hi1⟩, List.get?_eq_get hi, List.get?_eq_get hi1, ?_⟩
    unfold InterpolateTriggerTime
    rw [hs, if_neg (by omega), List.get?_eq_get hi, List.get?_eq_get hi1]

/-- Claim C4 counterexample: at capture depth 0 with the (empty) buffer of
that depth, the claim predicts a 0 return, but the code's size_t comparison
g_triggerSampleIndex >= g_memDepth-1 wraps around and the function
dereferences buf[0] out of bounds (surfaced as none). -/
theorem claim_C4_counterexample :
    InterpolateTriggerTime 0 0 0 [] = none ∧
    (none : Option ℚ) ≠ some 0 ∧ ([] : List ℚ).length = 0 := by
  decide

/-- Claim C5 (amended): the positivity invariant (positive sample interval
and memory depth, and positive snapshot copies whenever armed) is preserved
by every operation whose arguments are well-formed (RATE between 1 and 10^15
Hz, DEPTH positive), and is established by such a RATE command issued while
disarmed.  It does not hold of all reachable states: the initial sample
interval is 0, so arming before any RATE command yields an armed state whose
arm-time division g_triggerDelay / g_sampleInterval is undefined. -/
theorem claim_C5_amended :
    (∀ n s op, armedPosInv s → goodOp op → armedPosInv (step n s op).state) ∧
    (∀ n s rate_hz, 0 < s.memDepth → s.triggerArmed = false →
        1 ≤ rate_hz → rate_hz ≤ FS_PER_SECOND →
        armedPosInv (step n s (Op.setSampleRate rate_hz)).state) ∧
    (∀ s, armedPosInv s → s.triggerArmed = true →
        0 < s.sampleInterval ∧ 0 < s.memDepth ∧
        0 < s.sampleIntervalDuringArm ∧ 0 < s.captureMemDepth) := by
  refine ⟨?_, ?_, ?_⟩
  · intro n s op hinv hgood
    obtain ⟨hd, hi, harm⟩ := hinv
    cases op
    case setSampleRate rate_hz =>
      obtain ⟨h1, h2⟩ := hgood
      have hpos : 0 < FS_PER_SECOND / rate_hz := Nat.div_pos h2 h1
      simp only [step, SetSampleRate, RestartTriggerIfArmed, Start, armedPosInv]
      split_ifs with ha
      · exact ⟨hd, hpos, fun _ => ⟨hpos, hd⟩⟩
      · exact ⟨hd, hpos, fun hh => harm hh⟩
    all_goals
      simp only [goodOp] at hgood
      simp only [step, SetChannelEnabled, SetAnalogCoupling, SetAnalogRange, SetAnalogOffset,
        OnCommandAtten, SetSampleDepth, SetTriggerDelay, SetTriggerSource,
        SetTriggerLevel, SetTriggerTypeEdge, SetEdgeTriggerEdge, AcquisitionStart,
        AcquisitionForceTrigger, AcquisitionStop, Stop, drainCapture, drainFinal,
        RestartTriggerIfArmed, Start, armedPosInv]
      try split_ifs
      all_goals simp_all
  · intro n s rate_hz hd harm h1 h2
    have hpos : 0 < FS_PER_SECOND / rate_hz := Nat.div_pos h2 h1
    simp only [step, SetSampleRate, RestartTriggerIfArmed, armedPosInv]
    rw [if_neg (by simp [harm])]
    exact ⟨hd, hpos, by simp [harm]⟩
  · intro s hinv harm
    exact ⟨hinv.2.1, hinv.1, (hinv.2.2 harm).1, (hinv.2.2 harm).2⟩

/-- Claim C5 counterexample: the reachable state after C1:ON then SINGLE is
armed with sample interval 0 (live and snapshot), refuting the claimed
invariant that interval and depth are strictly positive whenever armed. -/
theorem claim_C5_counterexample :
    Reachable 2 stateArmedOneShot ∧
    stateArmedOneShot.triggerArmed = true ∧
    stateArmedOneShot.sampleInterval = 0 ∧
    stateArmedOneShot.sampleIntervalDuringArm = 0 := by
  refine ⟨?_, by decide, by decide, by decide⟩
  exact Reachable.step (Op.acquisitionStart true)
    (Reachable.step (Op.setChannelEnabled 0 true) Reachable.init)

/-- Claim C6: for a completed capture with an analog trigger, the trigger
phase sent on the data plane equals
-phase * sampleIntervalFs + sampleIntervalFs + triggerDeltaSec * FS_PER_SECOND,
where phase is InterpolateTriggerTime on the trigger channel's buffer,
sampleIntervalFs is the ArmSnapshot's sample interval, and triggerDeltaSec is
the actual-minus-requested correction recorded by SetTriggerDelay. -/
theorem claim_C6 :
    ∀ n s statusData ph,
      InterpolateTriggerTime s.memDepth s.triggerSampleIndex s.triggerVoltage
        (statusData s.triggerChannel) = some ph →
      captureTrigPhase s statusData =
        some (-ph * (s.sampleIntervalDuringArm : ℚ) + (s.sampleIntervalDuringArm : ℚ)
          + s.triggerDeltaSec * (FS_PER_SECOND : ℚ)) ∧
      ∀ cf ∈ (drainCapture n s statusData).2.channels,
        cf.trigphase = captureTrigPhase s statusData := by
  intro n s statusData ph h
  constructor
  · unfold captureTrigPhase
    rw [h]
    show some _ = some _
    congr 1
    ring
  · intro cf hcf
    simp only [drainCapture, List.mem_map] at hcf
    obtain ⟨i, _, hi⟩ := hcf
    rw [← hi]

/-- Claim C7: after a capture is fully drained by the streamer, if oneShot
is true then armed becomes false, Start is not invoked and the ArmSnapshot is
left alone; if oneShot is false then Start is invoked exactly once, leaving
the capture armed with a fresh ArmSnapshot equal to the live
configuration. -/
theorem claim_C7 :
    ∀ n s statusData, s.triggerArmed = true →
      ((s.triggerOneShot = true →
          (drainCapture n s statusData).1.state.triggerArmed = false ∧
          (drainCapture n s statusData).1.starts = 0 ∧
          (drainCapture n s statusData).1.state.channelOnDuringArm = s.channelOnDuringArm ∧
          (drainCapture n s statusData).1.state.sampleIntervalDuringArm
            = s.sampleIntervalDuringArm ∧
          (drainCapture n s statusData).1.state.captureMemDepth = s.captureMemDepth) ∧
       (s.triggerOneShot = false →
          (drainCapture n s statusData).1.starts = 1 ∧
          (drainCapture n s statusData).1.state.triggerArmed = true ∧
          (drainCapture n s statusData).1.state.channelOnDuringArm = s.channelOn ∧
          (drainCapture n s statusData).1.state.sampleIntervalDuringArm = s.sampleInterval ∧
          (drainCapture n s statusData).1.state.captureMemDepth = s.memDepth)) := by
  intro n s statusData _
  constructor
  · intro ho
    simp only [drainCapture, drainFinal, ho]
    simp
  · intro ho
    simp only [drainCapture, drainFinal, ho, Start]
    simp

/-- Bridge between the size_t truncation of a nonnegative rational and its
integer floor. -/
theorem ratToSizeT_coe (q : ℚ) (hq : 0 ≤ q) : (ratToSizeT q : ℤ) = ⌊q⌋ := by
  rw [Rat.floor_def]
  rw [← Int.toNat_of_nonneg (Rat.num_nonneg.mpr hq)]
  rw [ratToSizeT, Int.natCast_div]

/-- Truncation is strictly monotone across a gap of at least one. -/
theorem ratToSizeT_lt (a b : ℚ) (h0 : 0 ≤ a) (h1 : a + 1 ≤ b) :
    ratToSizeT a < ratToSizeT b := by
  have hb : (0:ℚ) ≤ b := by linarith
  have ha' := ratToSizeT_coe a h0
  have hb' := ratToSizeT_coe b hb
  have h2 : ((⌊a⌋ + 1 : ℤ) : ℚ) ≤ b := by
    push_cast
    linarith [Int.floor_le a]
  have h3 := Int.le_floor.mpr h2
  omega

/-- Truncation dominates any natural lower bound of the rational. -/
theorem ratToSizeT_ge (q : ℚ) (m : ℕ) (h : (m : ℚ) ≤ q) : m ≤ ratToSizeT q := by
  have h0 : (0:ℚ) ≤ q := le_trans (by positivity) h
  have hc := ratToSizeT_coe q h0
  have h2 : ((m : ℤ) : ℚ) ≤ q := by exact_mod_cast h
  have h3 := Int.le_floor.mpr h2
  omega

/-- Truncation of a rational bracketed between m and m+1 is m. -/
theorem ratToSizeT_eq_of (q : ℚ) (m : ℕ) (h1 : (m : ℚ) ≤ q) (h2 : q < m + 1) :
    ratToSizeT q = m := by
  have h0 : (0:ℚ) ≤ q := le_trans (by positivity) h1
  have hc := ratToSizeT_coe q h0
  have hf : ⌊q⌋ = (m : ℤ) := by
    rw [Int.floor_eq_iff]
    constructor
    · exact_mod_cast h1
    · exact_mod_cast h2
  omega

/-- The 1-2-5 stepdown list is strictly decreasing, including after the
size_t truncation of each pushed entry. -/
theorem ratesLoop_chain (minFreq : ℚ) (hmin : 1000 ≤ minFreq) :
    ∀ fuel freq, ratToSizeT freq ≤ fuel →
      List.Chain' (· > ·) (ratesLoop minFreq hmin freq) := by
  intro fuel
  induction fuel with
  | zero =>
    intro freq hle
    rw [ratesLoop]
    split_ifs with h
    · have := ratToSizeT_ge freq 1000 (by push_cast; linarith)
      omega
    · exact List.chain'_nil
  | succ k ih =>
    intro freq hle
    rw [ratesLoop]
    split_ifs with h
    · have h1000 : (1000 : ℚ) ≤ freq := le_trans hmin h
      have hab : ratToSizeT (freq / 2) < ratToSizeT freq :=
        ratToSizeT_lt (freq / 2) freq (by linarith) (by linarith)
      have hbc : ratToSizeT (freq / 5) < ratToSizeT (freq / 2) :=
        ratToSizeT_lt (freq / 5) (freq / 2) (by linarith) (by linarith)
      have hcd : ratToSizeT (freq / 10) < ratToSizeT (freq / 5) :=
        ratToSizeT_lt (freq / 10) (freq / 5) (by linarith) (by linarith)
      have hrec : List.Chain' (· > ·) (ratesLoop minFreq hmin (freq / 10)) := by
        apply ih
        have := ratToSizeT_lt (freq / 10) freq (by linarith) (by linarith)
        omega
      refine List.chain'_cons.mpr ⟨hab, List.chain'_cons.mpr ⟨hbc, ?_⟩⟩
      refine List.chain'_cons'.mpr ⟨?_, hrec⟩
      intro y hy
      rw [ratesLoop] at hy
      split_ifs at hy with h10
      · simp only [List.head?_cons, Option.mem_def, Option.some.injEq] at hy
        omega
      · simp at hy
    · exact List.chain'_nil

/-- Claim C8 (amended): the list returned by GetSampleRates is strictly
decreasing for every hardware min/max frequency, and for minFreq = 1000 and
maxFreq = 100000000 its entries are exactly f, f/2, f/5 for f in the
geometric sequence 10^8, 10^7, ..., 10^3.  For maxFreq values where f/2 or
f/5 is not an integer the entries are their size_t truncations, not the
exact quotients the claim states. -/
theorem claim_C8_amended :
    (∀ minFreqHW maxFreqHW : ℚ, List.Chain' (· > ·) (GetSampleRates minFreqHW maxFreqHW)) ∧
    GetSampleRates 1000 100000000 = [100000000, 50000000, 20000000,
      10000000, 5000000, 2000000, 1000000, 500000, 200000, 100000, 50000, 20000,
      10000, 5000, 2000, 1000, 500, 200] := by
  constructor
  · intro minFreqHW maxFreqHW
    exact ratesLoop_chain _ _ (ratToSizeT maxFreqHW) maxFreqHW le_rfl
  · rw [GetSampleRates]
    rw [ratesLoop, dif_pos (by norm_num), ratesLoop, dif_pos (by norm_num),
        ratesLoop, dif_pos (by norm_num), ratesLoop, dif_pos (by norm_num),
        ratesLoop, dif_pos (by norm_num), ratesLoop, dif_pos (by norm_num),
        ratesLoop, dif_neg (by norm_num)]
    simp only [List.cons.injEq, and_true]
    refine ⟨?_, ?_, ?_, ?_, ?_, ?_, ?_, ?_, ?_, ?_, ?_, ?_, ?_, ?_, ?_, ?_, ?_, ?_⟩ <;>
      (apply ratToSizeT_eq_of <;> norm_num)

/-- Claim C8 counterexample: for maxFreq = 1001 (which is >= minFreq = 1000)
the returned entries are 1001, 500, 200 - the pushes into a vector of size_t
truncate - whereas the claim's exact entries would be 1001, 1001/2,
1001/5. -/
theorem claim_C8_counterexample :
    GetSampleRates 1000 1001 = [1001, 500, 200] ∧
    ((GetSampleRates 1000 1001).map fun k => (k : ℚ)) ≠ [1001, 1001 / 2, 1001 / 5] := by
  have h : GetSampleRates 1000 1001 = [1001, 500, 200] := by
    rw [GetSampleRates]
    rw [ratesLoop, dif_pos (by norm_num), ratesLoop, dif_neg (by norm_num)]
    simp only [List.cons.injEq, and_true]
    refine ⟨?_, ?_, ?_⟩ <;> (apply ratToSizeT_eq_of <;> norm_num)
  refine ⟨h, ?_⟩
  rw [h]
  simp only [List.map, ne_eq, List.cons.injEq]
  norm_num

/-- A value returned by stoi lies within the int range. -/
theorem stoi_some_bound (s : List Char) (k : ℤ) (h : stoi s = some k) :
    -(2 ^ 31) ≤ k ∧ k < 2 ^ 31 := by
  unfold stoi at h
  cases hr : stoiRaw s with
  | none => rw [hr] at h; exact absurd h (by simp)
  | some v =>
    rw [hr] at h
    dsimp only at h
    split_ifs at h with h2
    push_neg at h2
    simp only [Option.some.injEq] at h
    rw [← h]
    exact h2

/-- Claim C9 (amended): for a subject whose first character is C/c followed
by text that stoi parses as k, GetChannelID succeeds with
min(size_t(k - 1), numAnalogChannels): for k >= 1 that is min(k-1, n), and
for k <= 0 (e.g. subject C0) the size_t cast wraps around so the result is
numAnalogChannels itself, not 0 as mathematical clamping into [0, n] would
give; a C-subject with no parsable integer throws (stoi invalid_argument)
instead of succeeding; any other subject returns false without producing an
index. -/
theorem claim_C9_amended :
    (∀ n subject, toupperChar (subject.headD (Char.ofNat 0)) ≠ 'C' →
        GetChannelID n subject = ChannelIDResult.notChannel) ∧
    (∀ n subject, toupperChar (subject.headD (Char.ofNat 0)) = 'C' →
        stoi (subject.drop 1) = none →
        GetChannelID n subject = ChannelIDResult.threw) ∧
    (∀ n subject k, toupperChar (subject.headD (Char.ofNat 0)) = 'C' →
        stoi (subject.drop 1) = some k →
        GetChannelID n subject = ChannelIDResult.ok (min (sizeTofInt (k - 1)) n) ∧
        (1 ≤ k → min (sizeTofInt (k - 1)) n = min (k - 1).toNat n) ∧
        (k ≤ 0 → n < 2 ^ 63 → min (sizeTofInt (k - 1)) n = n)) := by
  refine ⟨?_, ?_, ?_⟩
  · intro n subject hC
    unfold GetChannelID
    rw [if_neg hC]
  · intro n subject hC hs
    unfold GetChannelID
    rw [if_pos hC, hs]
  · intro n subject k hC hs
    obtain ⟨hlo, hhi⟩ := stoi_some_bound _ _ hs
    refine ⟨?_, ?_, ?_⟩
    · unfold GetChannelID
      rw [if_pos hC, hs]
    · intro h1
      have : sizeTofInt (k - 1) = (k - 1).toNat := by
        unfold sizeTofInt SIZE_T_MOD
        omega
      rw [this]
    · intro h0 hn
      have : n ≤ sizeTofInt (k - 1) := by
        unfold sizeTofInt SIZE_T_MOD
        omega
      exact min_eq_right this

/-- Claim C9 counterexample: subject C0 with two analog channels yields
channel index 2 (the wrapped size_t minimum), while clamping
parseInt - 1 = -1 into [0, 2] as the claim states would yield 0. -/
theorem claim_C9_counterexample :
    GetChannelID 2 ("C0".toList) = ChannelIDResult.ok 2 ∧
    specClamp 2 (0 - 1) = 0 ∧ (2 : ℕ) ≠ 0 := by
  decide

/-- One parser step sets the query flag exactly when the character is a
question mark. -/
theorem parseChar_query (st : ScpiParse) (c : Char) :
    (parseChar st c).query = (st.query || (c == '?')) := by
  unfold parseChar
  split_ifs with h1 h2 h3 h4 h5
  · have : (c == '?') = false := by
      simp only [beq_eq_false_iff_ne, ne_eq]
      rw [h1.1]
      decide
    simp [this]
  · simp [h2]
  all_goals
    have : (c == '?') = false := by simp only [beq_eq_false_iff_ne, ne_eq]; exact h2
    simp [this]

/-- The query flag after a scan records whether any question mark was
seen. -/
theorem foldl_query (l : List Char) (st : ScpiParse) :
    (l.foldl parseChar st).query = (st.query || l.any (· == '?')) := by
  induction l generalizing st with
  | nil => simp
  | cons c cs ih =>
    simp only [List.foldl_cons, List.any_cons]
    rw [ih, parseChar_query, Bool.or_assoc]

/-- The leftover handling never touches subject or query. -/
theorem finishLine_fields (st : ScpiParse) :
    (finishLine st).subject = st.subject ∧ (finishLine st).query = st.query := by
  unfold finishLine
  split_ifs <;> exact ⟨rfl, rfl⟩

/-- One parser step never stores a question mark in any field. -/
theorem parseChar_noQ (st : ScpiParse) (c : Char)
    (h : '?' ∉ st.subject ∧ '?' ∉ st.cmd ∧ (∀ a ∈ st.args, '?' ∉ a) ∧ '?' ∉ st.tmp) :
    '?' ∉ (parseChar st c).subject ∧ '?' ∉ (parseChar st c).cmd ∧
      (∀ a ∈ (parseChar st c).args, '?' ∉ a) ∧ '?' ∉ (parseChar st c).tmp := by
  obtain ⟨hs, hc, ha, ht⟩ := h
  unfold parseChar
  split_ifs with h1 h2 h3 h4 h5
  · exact ⟨ht, hc, ha, by simp⟩
  · exact ⟨hs, hc, ha, ht⟩
  · refine ⟨hs, hc, ha, ?_⟩
    simp only [List.mem_append, List.mem_singleton]
    rintro (hq | hq)
    · exact ht hq
    · exact h2 hq.symm
  · exact ⟨hs, hc, ha, ht⟩
  · exact ⟨hs, ht, ha, by simp⟩
  · refine ⟨hs, hc, ?_, by simp⟩
    intro a haa
    rcases List.mem_append.mp haa with hmem | hmem
    · exact ha a hmem
    · rw [List.mem_singleton.mp hmem]
      exact ht

/-- A scan never stores a question mark in any field. -/
theorem foldl_noQ (l : List Char) (st : ScpiParse)
    (h : '?' ∉ st.subject ∧ '?' ∉ st.cmd ∧ (∀ a ∈ st.args, '?' ∉ a) ∧ '?' ∉ st.tmp) :
    '?' ∉ (l.foldl parseChar st).subject ∧ '?' ∉ (l.foldl parseChar st).cmd ∧
      (∀ a ∈ (l.foldl parseChar st).args, '?' ∉ a) ∧ '?' ∉ (l.foldl parseChar st).tmp := by
  induction l generalizing st with
  | nil => exact h
  | cons c cs ih => exact ih _ (parseChar_noQ st c h)

/-- The leftover handling never introduces a question mark. -/
theorem finishLine_noQ (st : ScpiParse)
    (h : '?' ∉ st.subject ∧ '?' ∉ st.cmd ∧ (∀ a ∈ st.args, '?' ∉ a) ∧ '?' ∉ st.tmp) :
    '?' ∉ (finishLine st).subject ∧ '?' ∉ (finishLine st).cmd ∧
      ∀ a ∈ (finishLine st).args, '?' ∉ a := by
  obtain ⟨hs, hc, ha, ht⟩ := h
  unfold finishLine
  split_ifs
  · refine ⟨hs, hc, ?_⟩
    intro a haa
    rcases List.mem_append.mp haa with hmem | hmem
    · exact ha a hmem
    · rw [List.mem_singleton.mp hmem]
      exact ht
  · exact ⟨hs, ht, ha⟩
  · exact ⟨hs, hc, ha⟩

/-- Once nonempty, the subject is never overwritten. -/
theorem foldl_subject_stable (l : List Char) (st : ScpiParse) (h : st.subject ≠ []) :
    (l.foldl parseChar st).subject = st.subject := by
  induction l generalizing st with
  | nil => rfl
  | cons c cs ih =>
    have hstep : (parseChar st c).subject = st.subject := by
      unfold parseChar
      split_ifs with h1 h2 h3 h4 h5
      · exact absurd h1.2 h
      all_goals rfl
    rw [List.foldl_cons, ih _ (by rw [hstep]; exact h), hstep]

/-- Without a colon the subject is never written. -/
theorem foldl_subject_noColon (l : List Char) (st : ScpiParse)
    (h : ∀ c ∈ l, c ≠ ':') :
    (l.foldl parseChar st).subject = st.subject := by
  induction l generalizing st with
  | nil => rfl
  | cons c cs ih =>
    have hc : c ≠ ':' := h c (List.mem_cons_self c cs)
    have hstep : (parseChar st c).subject = st.subject := by
      unfold parseChar
      split_ifs with h1 h2 h3 h4 h5
      · exact absurd h1.1 hc
      all_goals rfl
    rw [List.foldl_cons, ih _ (fun d hd => h d (List.mem_cons_of_mem c hd)), hstep]

/-- Delimiter-free text accumulates into tmp unchanged. -/
theorem foldl_accumulate (pre : List Char) (st : ScpiParse)
    (h : ∀ c ∈ pre, c ≠ ':' ∧ c ≠ '?' ∧ isSpaceChar c = false ∧ c ≠ ',') :
    pre.foldl parseChar st = { st with tmp := st.tmp ++ pre } := by
  induction pre generalizing st with
  | nil => simp
  | cons c cs ih =>
    obtain ⟨hcol, hq, hsp, hcom⟩ := h c (List.mem_cons_self c cs)
    have hstep : parseChar st c = { st with tmp := st.tmp ++ [c] } := by
      unfold parseChar
      rw [if_neg (by rintro ⟨hh, _⟩; exact hcol hh), if_neg hq,
          if_pos ⟨by rw [hsp]; simp, hcom⟩]
    rw [List.foldl_cons, hstep, ih _ (fun d hd => h d (List.mem_cons_of_mem c hd))]
    simp

/-- Once the command is set (and reading_cmd cleared) it never changes. -/
theorem foldl_cmd_stable (l : List Char) (st : ScpiParse)
    (hc : st.cmd ≠ []) (hr : st.reading_cmd = false) :
    (l.foldl parseChar st).cmd = st.cmd ∧ (l.foldl parseChar st).reading_cmd = false := by
  induction l generalizing st with
  | nil => exact ⟨rfl, hr⟩
  | cons c cs ih =>
    have hstep : (parseChar st c).cmd = st.cmd ∧ (parseChar st c).reading_cmd = false := by
      unfold parseChar
      split_ifs with h1 h2 h3 h4 h5
      · exact ⟨rfl, hr⟩
      · exact ⟨rfl, hr⟩
      · exact ⟨rfl, hr⟩
      · exact ⟨rfl, hr⟩
      · rw [hr] at h5; exact absurd h5 (by simp)
      · exact ⟨rfl, rfl⟩
    rw [List.foldl_cons]
    have := ih (parseChar st c) (by rw [hstep.1]; exact hc) hstep.2
    rw [this.1, hstep.1]
    exact ⟨rfl, this.2⟩

/-- The leftover handling keeps a nonempty command. -/
theorem finishLine_cmd_of_ne (st : ScpiParse) (hc : st.cmd ≠ []) :
    (finishLine st).cmd = st.cmd := by
  unfold finishLine
  by_cases h1 : st.tmp = []
  · rw [if_neg (by simp [h1])]
  · rw [if_pos (by simp [h1]), if_pos hc]

/-- On a colon-free line the command output is the first token. -/
theorem firstTok_cmd (l : List Char) (st : ScpiParse)
    (hnc : ∀ c ∈ l, c ≠ ':') (hc : st.cmd = []) (hr : st.reading_cmd = true) :
    (finishLine (l.foldl parseChar st)).cmd = firstTok st.tmp l := by
  induction l generalizing st with
  | nil =>
    simp only [List.foldl_nil, firstTok]
    unfold finishLine
    by_cases htmp : st.tmp = []
    · rw [if_neg (by simp [htmp]), hc, htmp]
    · rw [if_pos (by simp [htmp]), if_neg (by simp [hc])]
  | cons c cs ih =>
    have hcol : c ≠ ':' := hnc c (List.mem_cons_self c cs)
    have hnc' : ∀ d ∈ cs, d ≠ ':' := fun d hd => hnc d (List.mem_cons_of_mem c hd)
    rw [List.foldl_cons]
    by_cases hq : c = '?'
    · have hstep : parseChar st c = { st with query := true } := by
        unfold parseChar
        rw [if_neg (by rintro ⟨hh, _⟩; exact hcol hh), if_pos hq]
      rw [hstep, firstTok, if_pos hq]
      exact ih _ hnc' hc hr
    · by_cases hdel : isSpaceChar c = true ∨ c = ','
      · have hbr3 : ¬(¬(isSpaceChar c ∧ st.cmd = []) ∧ c ≠ ',') := by
          rcases hdel with hsp | hcom
          · rintro ⟨hn3, _⟩
            exact hn3 ⟨hsp, hc⟩
          · rintro ⟨_, hn4⟩
            exact hn4 hcom
        by_cases htmp : st.tmp = []
        · have hstep : parseChar st c = st := by
            unfold parseChar
            rw [if_neg (by rintro ⟨hh, _⟩; exact hcol hh), if_neg hq, if_neg hbr3,
                if_pos htmp]
          rw [hstep, firstTok, if_neg hq, if_pos (by simpa using hdel), if_pos htmp]
          have hres := ih st hnc' hc hr
          rw [htmp] at hres
          exact hres
        · have hstep : parseChar st c =
              { st with cmd := st.tmp, reading_cmd := false, tmp := [] } := by
            unfold parseChar
            rw [if_neg (by rintro ⟨hh, _⟩; exact hcol hh), if_neg hq, if_neg hbr3,
                if_neg htmp, if_pos hr]
          rw [hstep, firstTok, if_neg hq, if_pos (by simpa using hdel), if_neg htmp]
          have hstable := foldl_cmd_stable cs
            { st with cmd := st.tmp, reading_cmd := false, tmp := [] } (by simpa) rfl
          rw [finishLine_cmd_of_ne _ (by rw [hstable.1]; simpa), hstable.1]
      · push_neg at hdel
        have hsp : isSpaceChar c = false := by
          simpa using hdel.1
        have hstep : parseChar st c = { st with tmp := st.tmp ++ [c] } := by
          unfold parseChar
          rw [if_neg (by rintro ⟨hh, _⟩; exact hcol hh), if_neg hq,
              if_pos ⟨by rw [hsp]; simp, hdel.2⟩]
        rw [hstep, firstTok, if_neg hq, if_neg (by simp [hsp, hdel.2])]
        exact ih _ hnc' hc hr

/-- Claim C10 (amended): when a (nonempty) colon-prefix precedes the first
space, question mark, or comma, the subject is exactly the text before that
colon; when no colon appears anywhere in the line the subject is empty and
the whole first token becomes the command; a question mark anywhere sets the
query flag and is never included in the subject, command, or arguments.  The
original claim is stronger - it asserts the subject is empty whenever the
first colon does not precede the first space - and is false: the parser
assigns the subject at the first colon wherever it occurs. -/
theorem claim_C10_amended :
    (∀ pre rest, pre ≠ [] →
        (∀ c ∈ pre, c ≠ ':' ∧ c ≠ '?' ∧ isSpaceChar c = false ∧ c ≠ ',') →
        (ParseScpiLine (pre ++ ':' :: rest)).subject = pre) ∧
    (∀ line, (∀ c ∈ line, c ≠ ':') →
        (ParseScpiLine line).subject = [] ∧
        (ParseScpiLine line).cmd = firstTok [] line) ∧
    (∀ line, (ParseScpiLine line).query = line.any (· == '?') ∧
        '?' ∉ (ParseScpiLine line).subject ∧ '?' ∉ (ParseScpiLine line).cmd ∧
        ∀ a ∈ (ParseScpiLine line).args, '?' ∉ a) := by
  refine ⟨?_, ?_, ?_⟩
  · intro pre rest hne h
    have hacc : pre.foldl parseChar initParse = { initParse with tmp := initParse.tmp ++ pre } :=
      foldl_accumulate pre initParse h
    have hsub : (parseChar (pre.foldl parseChar initParse) ':').subject = pre := by
      rw [hacc]
      unfold parseChar
      rw [if_pos ⟨rfl, rfl⟩]
      show initParse.tmp ++ pre = pre
      simp [initParse]
    unfold ParseScpiLine
    rw [(finishLine_fields _).1, List.foldl_append, List.foldl_cons]
    rw [foldl_subject_stable rest _ (by rw [hsub]; exact hne)]
    exact hsub
  · intro line h
    constructor
    · unfold ParseScpiLine
      rw [(finishLine_fields _).1, foldl_subject_noColon _ _ h]
      rfl
    · exact firstTok_cmd line initParse h rfl rfl
  · intro line
    refine ⟨?_, ?_⟩
    · unfold ParseScpiLine
      rw [(finishLine_fields _).2, foldl_query]
      simp [initParse]
    · exact finishLine_noQ _ (foldl_noQ line initParse (by simp [initParse]))

/-- Claim C10 counterexample: in the line `FOO B:AR` the first colon comes
after the first space, so the claim predicts an empty subject, but the
parser assigns subject B (with command FOO and argument AR). -/
theorem claim_C10_counterexample :
    (ParseScpiLine ("FOO B:AR".toList)).subject = "B".toList ∧
    specSubject ("FOO B:AR".toList) = [] ∧
    "B".toList ≠ ([] : List Char) := by
  decide

/-- Witness for claim_C1 at a concrete coupling change. -/
theorem claim_C1_witness :
    (step 2 initState (Op.setAnalogCoupling 0 "DC1M")).starts = 0 ∧
    (step 2 initState (Op.setAnalogCoupling 0 "DC1M")).state.captureMemDepth
      = initState.captureMemDepth := by
  exact ⟨by decide, (claim_C1.2 2 initState (Op.setAnalogCoupling 0 "DC1M") (by decide)).2.2⟩

/-- Witness for claim_C2_amended at a concrete RATE command. -/
theorem claim_C2_witness :
    isConfigChange (Op.setSampleRate 1000) = true ∧
    (step 2 initState (Op.setSampleRate 1000)).starts =
      if initState.triggerArmed = true ∧ rearmsWhenArmed (Op.setSampleRate 1000) = true
      then 1 else 0 :=
  ⟨by decide, claim_C2_amended 2 initState (Op.setSampleRate 1000) (by decide)⟩

/-- Witness for claim_C3_amended: START on an armed state is a no-op. -/
theorem claim_C3_witness :
    stateArmedStale.triggerArmed = true ∧
    AcquisitionStart 2 stateArmedStale false = ⟨stateArmedStale, [], 0⟩ :=
  ⟨by decide, claim_C3_amended.1 2 stateArmedStale false (by decide)⟩

/-- Witness for claim_C4_amended at a depth-2 buffer. -/
theorem claim_C4_witness :
    InterpolateTriggerTime 2 5 0 [0, 1] = some 0 ∧
    ∃ fa fb, [(0:ℚ), 1].get? 0 = some fa ∧ [(0:ℚ), 1].get? 1 = some fb ∧
      InterpolateTriggerTime 2 0 (1/2) [0, 1] = some (((1:ℚ)/2 - fa) / (fb - fa)) :=
  ⟨claim_C4_amended.1 2 5 0 [0, 1] (by decide) (by decide) (by decide),
   claim_C4_amended.2 2 0 (1/2) [0, 1] (by decide) (by decide)⟩

/-- Witness for claim_C5_amended: a DEPTH command preserves the
invariant. -/
theorem claim_C5_witness :
    armedPosInv (step 2 { initState with sampleInterval := 10 } (Op.setSampleDepth 4)).state :=
  claim_C5_amended.1 2 { initState with sampleInterval := 10 } (Op.setSampleDepth 4)
    (by unfold armedPosInv; decide) (by unfold goodOp; decide)

/-- Witness for claim_C6 on the armed one-shot state with a two-sample
readback. -/
theorem claim_C6_witness :
    captureTrigPhase stateArmedOneShot dataPair =
      some (-(0:ℚ) * (stateArmedOneShot.sampleIntervalDuringArm : ℚ)
        + (stateArmedOneShot.sampleIntervalDuringArm : ℚ)
        + stateArmedOneShot.triggerDeltaSec * (FS_PER_SECOND : ℚ)) := by
  have h : InterpolateTriggerTime stateArmedOneShot.memDepth
      stateArmedOneShot.triggerSampleIndex stateArmedOneShot.triggerVoltage
      (dataPair stateArmedOneShot.triggerChannel) = some 0 := by
    show InterpolateTriggerTime 1000000 0 0 [0, 1] = some 0
    norm_num [InterpolateTriggerTime, sizeTSub1, SIZE_T_MOD]
  exact (claim_C6 2 stateArmedOneShot dataPair 0 h).1

/-- Witness for claim_C7: draining the armed one-shot capture disarms
without re-arming. -/
theorem claim_C7_witness :
    (drainCapture 2 stateArmedOneShot dataPair).1.state.triggerArmed = false ∧
    (drainCapture 2 stateArmedOneShot dataPair).1.starts = 0 := by
  have h := (claim_C7 2 stateArmedOneShot dataPair (by decide)).1 (by decide)
  exact ⟨h.1, h.2.1⟩

/-- Witness for claim_C9_amended at subject C3 with two channels. -/
theorem claim_C9_witness :
    GetChannelID 2 ("C3".toList) = ChannelIDResult.ok (min (sizeTofInt ((3:ℤ) - 1)) 2) ∧
    min (sizeTofInt ((3:ℤ) - 1)) 2 = min ((3:ℤ) - 1).toNat 2 := by
  have h := claim_C9_amended.2.2 2 ("C3".toList) 3 (by decide) (by decide)
  exact ⟨h.1, h.2.1 (by norm_num)⟩

/-- Witness for claim_C10_amended on the line C1:ON. -/
theorem claim_C10_witness :
    (ParseScpiLine ("C1".toList ++ ':' :: "ON".toList)).subject = "C1".toList :=
  claim_C10_amended.1 ("C1".toList) ("ON".toList) (by decide) (by decide)

end Wfm
